import Mathlib

/-!
Shallow embedding of the `dao_backend` canister of the ICP Hacker's Den
repository (src/2-dao/src/dao_backend/src/lib.rs and
src/ICP/examples/2-dao/src/dao_backend/src/heartbeat.rs), together with
theorems checking the design document's claims about it.

Modelling conventions:
* IC principals are opaque comparable keys; we model them as `String`.
* Token amounts and proposal ids are Rust `u64`; we model them as `Nat`
  with explicit wrap-around (`% 2^64`) exactly where the Rust code performs
  `u64` arithmetic (`+=`, `-=`, `+`).  Rust release builds (the default for
  canister deployment) wrap on overflow; a debug build would trap instead —
  either way a `u64` subtraction below zero does not produce an error value.
* `HashMap` is modelled as an association list with the map operations the
  code uses (`get`/`get_mut` = first-match lookup/update, `insert` =
  replace-or-append, `entry(..).or_default()` = lookup-or-insert-zero).
  A `HashMap` never holds a key twice; theorems that need this carry a
  `Nodup` hypothesis on the key list.
* Each `#[ic_cdk::update]` entry point is a function from the pre-state
  (plus the ambient caller identity where the body reads it) to the
  post-state, paired with the returned `Result` where the Rust function
  returns one; returning `Err` before any mutation leaves the state
  unchanged, as in the source.
-/

namespace BasicDao

/-- Identities (IC principals): opaque, comparable, hashable keys. -/
abbrev Principal := String

/-- Modulus of Rust `u64` arithmetic: 2^64. -/
def U64 : Nat := 18446744073709551616

/-- Wrapping `u64` addition. -/
def addW (a b : Nat) : Nat := (a + b) % U64

/-- Wrapping `u64` subtraction (for a minuend `a < U64`). -/
def subW (a b : Nat) : Nat := (a + (U64 - b % U64)) % U64

/-- First-match association-list lookup: `HashMap::get`. -/
def lookupA {κ α : Type} [DecidableEq κ] : List (κ × α) → κ → Option α
  | [], _ => none
  | (k, v) :: rest, key => if k = key then some v else lookupA rest key

/-- Replace the first binding of `key` (as through `HashMap::get_mut`),
or append a fresh binding when absent (`HashMap::insert` on a new key). -/
def setA {κ α : Type} [DecidableEq κ] : List (κ × α) → κ → α → List (κ × α)
  | [], key, v => [(key, v)]
  | (k, v0) :: rest, key, v =>
    if k = key then (k, v) :: rest else (k, v0) :: setA rest key v

/- Token amounts ("Tokens" in the spec) are unsigned integers; the `Tokens`
newtype lives in the dao_backend `types.rs`, which is not part of the
provided sources, so amounts are written plainly as `Nat` here (with the
wrapping arithmetic above where the Rust code computes on `u64`). -/


/-- Modelled from the spec: proposal payload = target identity + method
name + opaque message bytes (declared in the missing `types.rs`; the field
names `canister_id`, `method`, `message` are those heartbeat.rs reads). -/
structure ProposalPayload where
  canister_id : Principal
  method : String
  message : List Nat
deriving DecidableEq

/-- Modelled from the spec: lifecycle states
`Open → {Accepted, Rejected} → Executing → {Succeeded, Failed(reason)}`
(the enum lives in the missing `types.rs`; all six constructors are used by
lib.rs / heartbeat.rs). -/
inductive ProposalState where
  | Open : ProposalState
  | Accepted : ProposalState
  | Rejected : ProposalState
  | Executing : ProposalState
  | Succeeded : ProposalState
  | Failed : String → ProposalState
deriving DecidableEq

/-- Modelled from the spec: a ballot choice is Yes or No. -/
inductive Vote where
  | Yes : Vote
  | No : Vote
deriving DecidableEq

/-- Modelled from the spec: proposal record; the fields are exactly those
lib.rs constructs in `submit_proposal`. -/
structure Proposal where
  id : Nat
  timestamp : Nat
  proposer : Principal
  payload : ProposalPayload
  state : ProposalState
  votes_yes : Nat
  votes_no : Nat
  voters : List Principal
deriving DecidableEq

/-- Modelled from the spec: mutable configuration (transfer fee, vote
threshold, submission deposit), declared in the missing `types.rs`. -/
structure SystemParams where
  transfer_fee : Nat
  proposal_vote_threshold : Nat
  proposal_submission_deposit : Nat
deriving DecidableEq

/-- Modelled from the spec: partial patch for `update_system_params`;
present fields overwrite, absent fields are untouched. -/
structure UpdateSystemParamsPayload where
  transfer_fee : Option Nat
  proposal_vote_threshold : Option Nat
  proposal_submission_deposit : Option Nat
deriving DecidableEq

/-- Modelled from the spec: an (owner, tokens) account record of the
durable snapshot (missing `types.rs`). -/
structure Account where
  owner : Principal
  tokens : Nat
deriving DecidableEq

/-- Modelled from the spec: the durable snapshot handed to `init`
(missing `types.rs`): accounts, proposals and system params. -/
structure BasicDaoStableStorage where
  accounts : List Account
  proposals : List Proposal
  system_params : SystemParams
deriving DecidableEq

/-- Struct `BasicDaoService` (lib.rs): the whole process-wide state. -/
structure BasicDaoService where
  accounts : List (Principal × Nat)
  proposals : List (Nat × Proposal)
  next_proposal_id : Nat
  system_params : SystemParams
deriving DecidableEq

/-- Conversion `From<BasicDaoStableStorage> for BasicDaoService` (lib.rs 21-33):
rebuilds both maps from the snapshot but resets `next_proposal_id` to 1. -/
def serviceFromStable (stable : BasicDaoStableStorage) : BasicDaoService :=
  { accounts := stable.accounts.map fun a => (a.owner, a.tokens)
    proposals := stable.proposals.map fun p => (p.id, p)
    next_proposal_id := 1
    system_params := stable.system_params }

/-- Struct `TransferArgs` of lib.rs. -/
structure TransferArgs where
  «to» : Principal
  amount : Nat
deriving DecidableEq

/-- Function `transfer` (lib.rs 85-110).  Note the sufficiency check compares the
caller's balance against `args.amount` alone, while the debit subtracts
`args.amount + transfer_fee`. -/
def transfer (s : BasicDaoService) (caller : Principal) (args : TransferArgs) :
    Except String Unit × BasicDaoService :=
  let transfer_fee := s.system_params.transfer_fee
  match lookupA s.accounts caller with
  | none => (Except.error "Caller needs an account to transfer funds", s)
  | some account =>
    if account < args.amount then
      (Except.error ("Caller's account has insufficient funds to transfer "
        ++ toString args.amount), s)
    else
      let accounts1 := setA s.accounts caller (subW account (addW args.amount transfer_fee))
      let accounts2 :=
        match lookupA accounts1 args.«to» with
        | some b => setA accounts1 args.«to» (addW b args.amount)
        | none => accounts1 ++ [(args.«to», addW 0 args.amount)]
      (Except.ok (), { s with accounts := accounts2 })

/-- The ledger rewrite performed by the success branch of `transfer`
(lib.rs 101-103), abstracted over the caller's looked-up balance `bal` and
the fee: debit `amount + fee` (wrapping) from the caller, then credit
`amount` to the recipient, creating the recipient's account at zero first
when absent. -/
def transferAccounts (accounts : List (Principal × Nat)) (c : Principal)
    (args : TransferArgs) (fee bal : Nat) : List (Principal × Nat) :=
  let accounts1 := setA accounts c (subW bal (addW args.amount fee))
  match lookupA accounts1 args.«to» with
  | some b => setA accounts1 args.«to» (addW b args.amount)
  | none => accounts1 ++ [(args.«to», addW 0 args.amount)]

/-- Function `submit_proposal` (lib.rs 112-147).  `now` stands for
`ic_cdk::api::time()`. -/
def submit_proposal (s : BasicDaoService) (caller : Principal)
    (payload : ProposalPayload) (now : Nat) : Except String Nat × BasicDaoService :=
  let proposal_submission_deposit := s.system_params.proposal_submission_deposit
  match lookupA s.accounts caller with
  | none => (Except.error "Caller does not have an account", s)
  | some account =>
    if account < proposal_submission_deposit then
      (Except.error "Insufficient funds to submit proposal", s)
    else
      let accounts1 := setA s.accounts caller (subW account proposal_submission_deposit)
      let proposal_id := s.next_proposal_id
      let new_proposal : Proposal :=
        { id := proposal_id
          timestamp := now
          proposer := caller
          payload := payload
          state := ProposalState.Open
          votes_yes := 0
          votes_no := 0
          voters := [] }
      (Except.ok proposal_id,
        { s with
          accounts := accounts1
          next_proposal_id := addW s.next_proposal_id 1
          proposals := setA s.proposals proposal_id new_proposal })

/-- Struct `VoteArgs` of lib.rs. -/
structure VoteArgs where
  proposal_id : Nat
  vote : Vote
deriving DecidableEq

/-- Function `vote` (lib.rs 149-186): voting power is the caller's live balance;
errors, in order: no account, proposal not found, already voted; then the
tally update and the yes-before-no threshold check. -/
def vote (s : BasicDaoService) (caller : Principal) (args : VoteArgs) :
    Except String ProposalState × BasicDaoService :=
  match lookupA s.accounts caller with
  | none => (Except.error "Caller does not have an account", s)
  | some voting_power =>
    let proposal_vote_threshold := s.system_params.proposal_vote_threshold
    match lookupA s.proposals args.proposal_id with
    | none => (Except.error "Proposal not found", s)
    | some proposal =>
      if caller ∈ proposal.voters then
        (Except.error "Caller has already voted", s)
      else
        let p1 :=
          match args.vote with
          | Vote.Yes => { proposal with votes_yes := addW proposal.votes_yes voting_power }
          | Vote.No => { proposal with votes_no := addW proposal.votes_no voting_power }
        let p2 := { p1 with voters := p1.voters ++ [caller] }
        let p3 :=
          if proposal_vote_threshold ≤ p2.votes_yes then
            { p2 with state := ProposalState.Accepted }
          else if proposal_vote_threshold ≤ p2.votes_no then
            { p2 with state := ProposalState.Rejected }
          else p2
        (Except.ok p3.state, { s with proposals := setA s.proposals args.proposal_id p3 })

/-- Function `update_proposal_state` (lib.rs 188-197): unconditionally overwrites the
state of an existing proposal; silently no-ops when the id is absent.  The
body never reads the ambient caller. -/
def update_proposal_state (s : BasicDaoService) (proposal_id : Nat)
    (new_state : ProposalState) : BasicDaoService :=
  match lookupA s.proposals proposal_id with
  | none => s
  | some proposal =>
    { s with proposals := setA s.proposals proposal_id { proposal with state := new_state } }

/-- The `update_proposal_state` entry point as invoked over the wire: every
`#[ic_cdk::update]` method runs with an ambient caller identity, which this
body ignores (it contains no `ic_cdk::api::caller()` call). -/
def update_proposal_state_entry (_caller : Principal) (s : BasicDaoService)
    (proposal_id : Nat) (new_state : ProposalState) : BasicDaoService :=
  update_proposal_state s proposal_id new_state

/-- Function `update_system_params` (lib.rs 200-221): a caller other than the
canister's own identity (`ic_cdk::api::id()`, here `self_id`) returns
silently; otherwise each `Some` field of the patch overwrites the
corresponding parameter. -/
def update_system_params (caller self_id : Principal) (s : BasicDaoService)
    (payload : UpdateSystemParamsPayload) : BasicDaoService :=
  if caller ≠ self_id then s
  else
    let sp0 := s.system_params
    let sp1 :=
      match payload.transfer_fee with
      | some v => { sp0 with transfer_fee := v }
      | none => sp0
    let sp2 :=
      match payload.proposal_vote_threshold with
      | some v => { sp1 with proposal_vote_threshold := v }
      | none => sp1
    let sp3 :=
      match payload.proposal_submission_deposit with
      | some v => { sp2 with proposal_submission_deposit := v }
      | none => sp2
    { s with system_params := sp3 }

/-- Failure reason built by `execute_proposal` (heartbeat.rs 46-53): carries
the target canister, method, originating rejection code and message. -/
def execMsg (payload : ProposalPayload) (code msg : String) : String :=
  "Proposal execution failed: canister: " ++ payload.canister_id
    ++ ", method: " ++ payload.method
    ++ ", rejection code: " ++ code ++ ", message: " ++ msg

/-- The external-invocation collaborator (`ic_cdk::api::call::call_raw`):
maps a payload to success bytes or a (rejection code, message) failure.
The code's `{:?}`-printed rejection code is modelled as a string. -/
abbrev ExtCall := ProposalPayload → Except (String × String) (List Nat)

/-- Function `execute_proposal` (heartbeat.rs 35-57): looks the proposal up, invokes
the external target, and maps a failure to the formatted reason. -/
def execute_proposal (ext : ExtCall) (s : BasicDaoService) (proposal_id : Nat) :
    Except String Unit :=
  match lookupA s.proposals proposal_id with
  | none => Except.error "Proposal not found"
  | some proposal =>
    match ext proposal.payload with
    | Except.ok _ => Except.ok ()
    | Except.error (code, msg) => Except.error (execMsg proposal.payload code msg)

/-- Per-entry rewrite of the scan phase (heartbeat.rs 16-19): an `Accepted`
proposal is flipped to `Executing`, any other entry is untouched. -/
def flipP (p : Proposal) : Proposal :=
  if p.state = ProposalState.Accepted then { p with state := ProposalState.Executing } else p

/-- Scan phase of `execute_accepted_proposals` (heartbeat.rs 12-22), map
half: the single synchronous `iter_mut` pass rewrites every entry with
`flipP`. -/
def flipAccepted : List (Nat × Proposal) → List (Nat × Proposal)
  | [] => []
  | (id, p) :: rest => (id, flipP p) :: flipAccepted rest

/-- Scan phase of `execute_accepted_proposals` (heartbeat.rs 12-22),
collect half: the ids the same pass collects — those of the entries that
were in `Accepted` state, in iteration order. -/
def acceptedIds : List (Nat × Proposal) → List Nat
  | [] => []
  | (id, p) :: rest =>
    if p.state = ProposalState.Accepted then id :: acceptedIds rest else acceptedIds rest

/-- Execution + finalize phases of `execute_accepted_proposals`
(heartbeat.rs 24-31): for each collected id, run the external call and set
the proposal to `Succeeded` or `Failed(reason)` via `update_proposal_state`. -/
def finalizeAll (ext : ExtCall) (s : BasicDaoService) : List Nat → BasicDaoService
  | [] => s
  | pid :: rest =>
    let st :=
      match execute_proposal ext s pid with
      | Except.ok _ => ProposalState.Succeeded
      | Except.error msg => ProposalState.Failed msg
    finalizeAll ext (update_proposal_state s pid st) rest

/-- Function `execute_accepted_proposals` (heartbeat.rs 11-32): the full tick —
the scan pass, then the per-id execution and finalization loop. -/
def execute_accepted_proposals (ext : ExtCall) (s : BasicDaoService) : BasicDaoService :=
  finalizeAll ext { s with proposals := flipAccepted s.proposals }
    (acceptedIds s.proposals)

/-- Sum of all account balances (total ledger supply). -/
def sumBal (l : List (Principal × Nat)) : Nat := (l.map Prod.snd).sum

/-- Edges of the lifecycle transition graph of the design document:
`Open → {Accepted, Rejected} → Executing → {Succeeded, Failed(reason)}`
(only `Accepted` continues to `Executing`). -/
inductive ForwardEdge : ProposalState → ProposalState → Prop
  | open_accepted : ForwardEdge ProposalState.Open ProposalState.Accepted
  | open_rejected : ForwardEdge ProposalState.Open ProposalState.Rejected
  | accepted_executing : ForwardEdge ProposalState.Accepted ProposalState.Executing
  | executing_succeeded : ForwardEdge ProposalState.Executing ProposalState.Succeeded
  | executing_failed (r : String) : ForwardEdge ProposalState.Executing (ProposalState.Failed r)

/-- Forward reachability along the lifecycle graph (zero or more edges). -/
def ForwardReach : ProposalState → ProposalState → Prop :=
  Relation.ReflTransGen ForwardEdge

/-- Terminal lifecycle states: `Succeeded`, `Failed`, `Rejected`. -/
def Terminal : ProposalState → Prop := fun st =>
  st = ProposalState.Succeeded ∨ (∃ r, st = ProposalState.Failed r) ∨
    st = ProposalState.Rejected

/-- Fold a list of `(caller, args)` transfer requests over the state,
keeping each post-state (successful or not), as a sequence of `transfer`
calls arriving in order would. -/
def applyTransfers (s : BasicDaoService) : List (Principal × TransferArgs) → BasicDaoService
  | [] => s
  | (c, args) :: rest => applyTransfers (transfer s c args).2 rest

/-- Every transfer of the request list returns `Ok` when run in sequence. -/
def allOk (s : BasicDaoService) : List (Principal × TransferArgs) → Prop
  | [] => True
  | (c, args) :: rest =>
    (transfer s c args).1 = Except.ok () ∧ allOk (transfer s c args).2 rest

/-- Precondition under which a `transfer` call is safe: the caller has an
account whose balance covers `amount + fee`, and the total supply fits in a
`u64` (so neither the debit nor the credit wraps). -/
def SafeStep (s : BasicDaoService) (c : Principal) (args : TransferArgs) : Prop :=
  ∃ bal, lookupA s.accounts c = some bal ∧
    args.amount + s.system_params.transfer_fee ≤ bal ∧
    sumBal s.accounts < U64

/-- A request list all of whose transfers are safe in sequence. -/
inductive SafeSeq : BasicDaoService → List (Principal × TransferArgs) → Prop
  | nil (s : BasicDaoService) : SafeSeq s []
  | cons (s : BasicDaoService) (c : Principal) (args : TransferArgs)
      (rest : List (Principal × TransferArgs)) :
      SafeStep s c args → SafeSeq (transfer s c args).2 rest →
      SafeSeq s ((c, args) :: rest)

/-- Identities untouched by a request list (neither caller nor recipient). -/
def NotParty (x : Principal) (reqs : List (Principal × TransferArgs)) : Prop :=
  ∀ r ∈ reqs, x ≠ r.1 ∧ x ≠ r.2.«to»

/-- Yes-tally after a vote of weight `w` (the `match args.vote` arm of
lib.rs 171-174). -/
def newYes (p : Proposal) (w : Nat) : Vote → Nat
  | Vote.Yes => addW p.votes_yes w
  | Vote.No => p.votes_yes

/-- No-tally after a vote of weight `w`. -/
def newNo (p : Proposal) (w : Nat) : Vote → Nat
  | Vote.Yes => p.votes_no
  | Vote.No => addW p.votes_no w

/-- The proposal record as rewritten by a successful `vote` of weight `w`
and choice `v` under threshold `T` (lib.rs 171-184). -/
def voteP (T : Nat) (p : Proposal) (c : Principal) (w : Nat) (v : Vote) : Proposal :=
  let p1 :=
    match v with
    | Vote.Yes => { p with votes_yes := addW p.votes_yes w }
    | Vote.No => { p with votes_no := addW p.votes_no w }
  let p2 := { p1 with voters := p1.voters ++ [c] }
  if T ≤ p2.votes_yes then { p2 with state := ProposalState.Accepted }
  else if T ≤ p2.votes_no then { p2 with state := ProposalState.Rejected }
  else p2

/-- Final state the executor assigns to a flipped proposal: `Succeeded` on a
successful external call, `Failed(reason)` otherwise (heartbeat.rs 25-28). -/
def finalSt (ext : ExtCall) (p : Proposal) : ProposalState :=
  match ext p.payload with
  | Except.ok _ => ProposalState.Succeeded
  | Except.error (code, msg) => ProposalState.Failed (execMsg p.payload code msg)

/-! Concrete states used to evaluate the code on specific inputs. -/

/-- Ledger with a single account holding 1 token, fee 1 (claim C1). -/
def stC1 : BasicDaoService :=
  { accounts := [("alice", 1)]
    proposals := []
    next_proposal_id := 1
    system_params :=
      { transfer_fee := 1, proposal_vote_threshold := 5, proposal_submission_deposit := 2 } }

/-- Payload reused by the concrete proposals below. -/
def plC : ProposalPayload := { canister_id := "target", method := "run", message := [0] }

/-- A proposal with id 1, as a durable snapshot would contain (claim C2). -/
def pC2 : Proposal :=
  { id := 1, timestamp := 3, proposer := "olga", payload := plC
    state := ProposalState.Open, votes_yes := 0, votes_no := 0, voters := [] }

/-- Durable snapshot that already contains proposal 1 (claim C2). -/
def stableC2 : BasicDaoStableStorage :=
  { accounts := [{ owner := "alice", tokens := 10 }]
    proposals := [pC2]
    system_params :=
      { transfer_fee := 1, proposal_vote_threshold := 5, proposal_submission_deposit := 2 } }

/-- State holding a proposal that already reached the terminal state
`Succeeded`, with votes_yes above the threshold (claim C3). -/
def stC3 : BasicDaoService :=
  { accounts := [("carol", 10)]
    proposals := [(1, { id := 1, timestamp := 3, proposer := "olga", payload := plC
                        state := ProposalState.Succeeded, votes_yes := 7, votes_no := 0
                        voters := ["dave"] })]
    next_proposal_id := 2
    system_params :=
      { transfer_fee := 1, proposal_vote_threshold := 5, proposal_submission_deposit := 2 } }

/-- Open proposal whose no-tally already sits at the threshold, so a single
yes-vote of weight 3 pushes both tallies to the threshold at once (claim C4). -/
def pC4 : Proposal :=
  { id := 1, timestamp := 0, proposer := "olga", payload := plC
    state := ProposalState.Open, votes_yes := 0, votes_no := 3, voters := ["ben"] }

/-- State for the C4 witness: threshold 3, voter `ann` with balance 3. -/
def stC4 : BasicDaoService :=
  { accounts := [("ann", 3), ("ben", 4)]
    proposals := [(1, pC4)]
    next_proposal_id := 2
    system_params :=
      { transfer_fee := 1, proposal_vote_threshold := 3, proposal_submission_deposit := 2 } }

/-- Proposal on which `eve` has already voted (claim C5). -/
def pC5 : Proposal :=
  { id := 1, timestamp := 0, proposer := "olga", payload := plC
    state := ProposalState.Open, votes_yes := 2, votes_no := 0, voters := ["eve"] }

/-- State for the C5 witness. -/
def stC5 : BasicDaoService :=
  { accounts := [("eve", 2)]
    proposals := [(1, pC5)]
    next_proposal_id := 2
    system_params :=
      { transfer_fee := 1, proposal_vote_threshold := 5, proposal_submission_deposit := 2 } }

/-- One-account ledger violating conservation after a wrapping transfer
(claim C6 counterexample). -/
def stC6 : BasicDaoService :=
  { accounts := [("a", 1)]
    proposals := []
    next_proposal_id := 1
    system_params :=
      { transfer_fee := 1, proposal_vote_threshold := 5, proposal_submission_deposit := 2 } }

/-- Two-account ledger for the C6 witness sequence (fee 2). -/
def stC6w : BasicDaoService :=
  { accounts := [("a", 30), ("b", 5)]
    proposals := []
    next_proposal_id := 1
    system_params :=
      { transfer_fee := 2, proposal_vote_threshold := 5, proposal_submission_deposit := 2 } }

/-- Safe two-transfer request list for the C6 witness. -/
def reqsC6 : List (Principal × TransferArgs) :=
  [("a", { «to» := "b", amount := 10 }), ("b", { «to» := "z", amount := 3 })]

/-- State for the C7 witness: deposit 10, proposer holding exactly 10. -/
def stC7 : BasicDaoService :=
  { accounts := [("ann", 10), ("ben", 4)]
    proposals := []
    next_proposal_id := 1
    system_params :=
      { transfer_fee := 1, proposal_vote_threshold := 5, proposal_submission_deposit := 10 } }

/-- Accepted proposal whose external call will succeed (claim C8). -/
def pC8a : Proposal :=
  { id := 1, timestamp := 0, proposer := "olga"
    payload := { canister_id := "target", method := "good", message := [] }
    state := ProposalState.Accepted, votes_yes := 9, votes_no := 0, voters := ["olga"] }

/-- Accepted proposal whose external call will fail (claim C8). -/
def pC8b : Proposal :=
  { id := 2, timestamp := 0, proposer := "olga"
    payload := { canister_id := "target", method := "bad", message := [] }
    state := ProposalState.Accepted, votes_yes := 9, votes_no := 0, voters := ["olga"] }

/-- Open proposal that the tick must leave alone (claim C8). -/
def pC8c : Proposal :=
  { id := 3, timestamp := 0, proposer := "olga", payload := plC
    state := ProposalState.Open, votes_yes := 0, votes_no := 0, voters := [] }

/-- State for the C8 witness: two accepted proposals and an open one. -/
def stC8 : BasicDaoService :=
  { accounts := [("ann", 7)]
    proposals := [(1, pC8a), (2, pC8b), (3, pC8c)]
    next_proposal_id := 4
    system_params :=
      { transfer_fee := 1, proposal_vote_threshold := 5, proposal_submission_deposit := 2 } }

/-- External-call collaborator for the C8 witness: method "good" succeeds,
everything else is rejected with code "SysFatal" and message "boom". -/
def extC8 : ExtCall := fun payload =>
  if payload.method = "good" then Except.ok [1] else Except.error ("SysFatal", "boom")

/-- State for the C9 and C10 witnesses. -/
def stC9 : BasicDaoService :=
  { accounts := [("ann", 7)]
    proposals := [(1, pC4)]
    next_proposal_id := 2
    system_params :=
      { transfer_fee := 1, proposal_vote_threshold := 3, proposal_submission_deposit := 2 } }

/-- Patch for the C9 and C10 witnesses: sets the fee to 9, touches nothing
else. -/
def patchC9 : UpdateSystemParamsPayload :=
  { transfer_fee := some 9, proposal_vote_threshold := none
    proposal_submission_deposit := none }

/-! Helper lemmas about the wrapping arithmetic and the map operations. -/

theorem subW_of_le {a b : Nat} (hb : b ≤ a) (ha : a < U64) : subW a b = a - b := by
  unfold subW U64 at *
  omega

theorem addW_of_lt {a b : Nat} (h : a + b < U64) : addW a b = a + b := by
  unfold addW U64 at *
  omega

theorem lookupA_setA_self {κ α : Type} [DecidableEq κ] (l : List (κ × α)) (k : κ) (v : α) :
    lookupA (setA l k v) k = some v := by
  induction l with
  | nil => simp [setA, lookupA]
  | cons hd tl ih =>
    obtain ⟨k0, v0⟩ := hd
    by_cases h : k0 = k
    · simp [setA, lookupA, h]
    · simp [setA, lookupA, h, ih]

theorem lookupA_setA_ne {κ α : Type} [DecidableEq κ] (l : List (κ × α)) (k k' : κ) (v : α)
    (h : k' ≠ k) : lookupA (setA l k v) k' = lookupA l k' := by
  induction l with
  | nil => simp [setA, lookupA, Ne.symm h]
  | cons hd tl ih =>
    obtain ⟨k0, v0⟩ := hd
    by_cases h0 : k0 = k
    · subst h0
      simp [setA, lookupA, Ne.symm h]
    · simp [setA, lookupA, h0, ih]

theorem setA_keys_of_lookup {κ α : Type} [DecidableEq κ] (l : List (κ × α)) (k : κ) (v w : α)
    (h : lookupA l k = some w) : (setA l k v).map Prod.fst = l.map Prod.fst := by
  induction l with
  | nil => simp [lookupA] at h
  | cons hd tl ih =>
    obtain ⟨k0, v0⟩ := hd
    by_cases h0 : k0 = k
    · simp [setA, h0]
    · simp only [lookupA, h0, if_false] at h
      simp [setA, h0, ih h]

theorem lookupA_append_right {κ α : Type} [DecidableEq κ] (l : List (κ × α)) (k : κ) (v : α)
    (h : lookupA l k = none) : lookupA (l ++ [(k, v)]) k = some v := by
  induction l with
  | nil => simp [lookupA]
  | cons hd tl ih =>
    obtain ⟨k0, v0⟩ := hd
    by_cases h0 : k0 = k
    · simp [lookupA, h0] at h
    · simp only [lookupA, h0, if_false] at h
      simp [lookupA, h0, ih h]

theorem lookupA_append_ne {κ α : Type} [DecidableEq κ] (l : List (κ × α)) (k k' : κ) (v : α)
    (h : k' ≠ k) : lookupA (l ++ [(k, v)]) k' = lookupA l k' := by
  induction l with
  | nil => simp [lookupA, Ne.symm h]
  | cons hd tl ih =>
    obtain ⟨k0, v0⟩ := hd
    by_cases h0 : k0 = k'
    · simp [lookupA, h0]
    · simp [lookupA, h0, ih]

theorem sumBal_setA (l : List (Principal × Nat)) (k : Principal) (v w : Nat)
    (h : lookupA l k = some w) : sumBal (setA l k v) + w = sumBal l + v := by
  induction l with
  | nil => simp [lookupA] at h
  | cons hd tl ih =>
    obtain ⟨k0, v0⟩ := hd
    by_cases h0 : k0 = k
    · simp only [lookupA, h0, if_true] at h
      obtain rfl : v0 = w := by exact Option.some.inj h
      simp only [setA, h0, if_true, sumBal, List.map_cons, List.sum_cons]
      omega
    · simp only [lookupA, h0, if_false] at h
      have hih := ih h
      simp only [setA, h0, if_false]
      simp only [sumBal, List.map_cons, List.sum_cons] at hih ⊢
      omega

theorem lookupA_le_sumBal (l : List (Principal × Nat)) (k : Principal) (w : Nat)
    (h : lookupA l k = some w) : w ≤ sumBal l := by
  induction l with
  | nil => simp [lookupA] at h
  | cons hd tl ih =>
    obtain ⟨k0, v0⟩ := hd
    by_cases h0 : k0 = k
    · simp only [lookupA, h0, if_true] at h
      obtain rfl : v0 = w := by exact Option.some.inj h
      simp [sumBal]
    · simp only [lookupA, h0, if_false] at h
      have hih := ih h
      simp only [sumBal] at hih ⊢
      simp only [List.map_cons, List.sum_cons]
      exact le_trans hih (Nat.le_add_left _ _)

theorem sumBal_append (l : List (Principal × Nat)) (k : Principal) (v : Nat) :
    sumBal (l ++ [(k, v)]) = sumBal l + v := by
  simp [sumBal]

/-! Frame lemmas: which state components each operation can touch. -/

theorem vote_accounts_eq (s : BasicDaoService) (c : Principal) (a : VoteArgs) :
    (vote s c a).2.accounts = s.accounts := by
  unfold vote
  split
  · rfl
  · split
    · rfl
    · split
      · rfl
      · rfl

theorem vote_params_eq (s : BasicDaoService) (c : Principal) (a : VoteArgs) :
    (vote s c a).2.system_params = s.system_params := by
  unfold vote
  split
  · rfl
  · split
    · rfl
    · split
      · rfl
      · rfl

theorem update_proposal_state_accounts_eq (s : BasicDaoService) (pid : Nat)
    (st : ProposalState) : (update_proposal_state s pid st).accounts = s.accounts := by
  unfold update_proposal_state
  split
  · rfl
  · rfl

theorem finalizeAll_accounts_eq (ext : ExtCall) (ids : List Nat) (s : BasicDaoService) :
    (finalizeAll ext s ids).accounts = s.accounts := by
  induction ids generalizing s with
  | nil => rfl
  | cons pid rest ih =>
    unfold finalizeAll
    exact (ih _).trans (update_proposal_state_accounts_eq ..)

theorem execute_accepted_proposals_accounts_eq (ext : ExtCall) (s : BasicDaoService) :
    (execute_accepted_proposals ext s).accounts = s.accounts := by
  unfold execute_accepted_proposals
  exact finalizeAll_accounts_eq ..

theorem vote_eval (s : BasicDaoService) (c : Principal) (pid : Nat) (v : Vote)
    (w : Nat) (p : Proposal)
    (hacc : lookupA s.accounts c = some w)
    (hp : lookupA s.proposals pid = some p)
    (hv : c ∉ p.voters) :
    vote s c ⟨pid, v⟩ =
      (Except.ok (voteP s.system_params.proposal_vote_threshold p c w v).state,
        { s with proposals := setA s.proposals pid (voteP s.system_params.proposal_vote_threshold p c w v) }) := by
  cases v <;> simp [vote, voteP, hacc, hp, hv]

theorem voteP_state (T : Nat) (p : Proposal) (c : Principal) (w : Nat) (v : Vote) :
    (voteP T p c w v).state =
      if T ≤ newYes p w v then ProposalState.Accepted
      else if T ≤ newNo p w v then ProposalState.Rejected
      else p.state := by
  cases v <;> simp only [voteP, newYes, newNo] <;> split_ifs <;> rfl

/-! Claim theorems. -/

/-- Claim C1 (refuted by the code, u64 underflow): in `stC1` the caller
holds exactly `amount + transfer_fee - 1 = 1` token, yet
`transfer(alice, bob, 1)` does not fail with InsufficientFunds — the guard
compares the balance to `amount` alone, the call returns `Ok`, the
recipient is credited, and the `u64` debit of `amount + fee = 2` wraps
below zero, leaving the caller with `2^64 - 1` tokens. -/
theorem transfer_succeeds_below_amount_plus_fee :
    (transfer stC1 "alice" { «to» := "bob", amount := 1 }).1 = Except.ok () ∧
    lookupA (transfer stC1 "alice" { «to» := "bob", amount := 1 }).2.accounts "alice"
      = some 18446744073709551615 ∧
    lookupA (transfer stC1 "alice" { «to» := "bob", amount := 1 }).2.accounts "bob"
      = some 1 := by
  refine ⟨rfl, rfl, rfl⟩

/-- Claim C2 (refuted by the code at snapshot restoration): `From` resets
`next_proposal_id` to 1 even when the restored store already holds proposal
1, so the next successful submission returns the already-assigned id 1 and
overwrites the restored proposal. -/
theorem submit_reuses_id_after_snapshot_restore :
    (serviceFromStable stableC2).next_proposal_id = 1 ∧
    lookupA (serviceFromStable stableC2).proposals 1 = some pC2 ∧
    (submit_proposal (serviceFromStable stableC2) "alice" plC 7).1 = Except.ok 1 ∧
    lookupA (submit_proposal (serviceFromStable stableC2) "alice" plC 7).2.proposals 1
      = some { id := 1, timestamp := 7, proposer := "alice", payload := plC
               state := ProposalState.Open, votes_yes := 0, votes_no := 0, voters := [] } ∧
    pC2.proposer ≠ "alice" := by
  refine ⟨rfl, rfl, rfl, rfl, by decide⟩

/-- Claim C3 (counterexample): the state of proposal 1 in `stC3` is the
terminal `Succeeded`, yet `update_proposal_state` (any caller) resets it to
`Open`, and `vote` (votes_yes crossing the threshold) resets it to
`Accepted` — both exposed operations move a proposal backward out of a
terminal state. -/
theorem terminal_state_left_by_update_and_vote :
    (lookupA stC3.proposals 1).map Proposal.state = some ProposalState.Succeeded ∧
    (lookupA (update_proposal_state_entry "mallory" stC3 1 ProposalState.Open).proposals 1).map
      Proposal.state = some ProposalState.Open ∧
    (vote stC3 "carol" { proposal_id := 1, vote := Vote.Yes }).1
      = Except.ok ProposalState.Accepted ∧
    (lookupA (vote stC3 "carol" { proposal_id := 1, vote := Vote.Yes }).2.proposals 1).map
      Proposal.state = some ProposalState.Accepted := by
  refine ⟨rfl, rfl, rfl, rfl⟩

theorem transfer_eval_ok (s : BasicDaoService) (c : Principal) (args : TransferArgs)
    (bal : Nat) (hb : lookupA s.accounts c = some bal) (hnlt : ¬ bal < args.amount) :
    transfer s c args =
      (Except.ok (),
        { s with accounts := transferAccounts s.accounts c args s.system_params.transfer_fee bal }) := by
  simp [transfer, transferAccounts, hb, hnlt]

theorem transfer_safe_step (s : BasicDaoService) (c : Principal) (args : TransferArgs)
    (h : SafeStep s c args) :
    (transfer s c args).1 = Except.ok () ∧
    sumBal (transfer s c args).2.accounts + s.system_params.transfer_fee
      = sumBal s.accounts ∧
    (transfer s c args).2.system_params = s.system_params ∧
    (transfer s c args).2.proposals = s.proposals ∧
    (transfer s c args).2.next_proposal_id = s.next_proposal_id ∧
    (∀ x, x ≠ c → x ≠ args.«to» →
      lookupA (transfer s c args).2.accounts x = lookupA s.accounts x) := by
  obtain ⟨bal, hb, hle, hsum⟩ := h
  have hbal_le : bal ≤ sumBal s.accounts := lookupA_le_sumBal _ _ _ hb
  have hbalU : bal < U64 := lt_of_le_of_lt hbal_le hsum
  have hafU : args.amount + s.system_params.transfer_fee < U64 := lt_of_le_of_lt hle hbalU
  have haddW : addW args.amount s.system_params.transfer_fee
      = args.amount + s.system_params.transfer_fee := addW_of_lt hafU
  have hnlt : ¬ bal < args.amount := Nat.not_lt.mpr (le_trans (Nat.le_add_right _ _) hle)
  have hsubW : subW bal (args.amount + s.system_params.transfer_fee)
      = bal - (args.amount + s.system_params.transfer_fee) := subW_of_le hle hbalU
  rw [transfer_eval_ok s c args bal hb hnlt]
  unfold transferAccounts
  rw [haddW, hsubW]
  have hsum1 : sumBal (setA s.accounts c (bal - (args.amount + s.system_params.transfer_fee)))
        + bal
      = sumBal s.accounts + (bal - (args.amount + s.system_params.transfer_fee)) :=
    sumBal_setA _ _ _ _ hb
  rcases hto : lookupA (setA s.accounts c (bal - (args.amount + s.system_params.transfer_fee)))
      args.«to» with _ | b
  · have h0 : args.amount < U64 := lt_of_le_of_lt (Nat.le_add_right _ _) hafU
    have hamt : addW 0 args.amount = args.amount := by
      rw [addW_of_lt (by simpa using h0), Nat.zero_add]
    refine ⟨rfl, ?_, rfl, rfl, rfl, ?_⟩
    · simp only [hto, hamt, sumBal_append]
      omega
    · intro x hxc hxt
      simp only [hto]
      rw [lookupA_append_ne _ _ _ _ hxt, lookupA_setA_ne _ _ _ _ hxc]
  · have hb_le : b ≤ sumBal (setA s.accounts c
        (bal - (args.amount + s.system_params.transfer_fee))) :=
      lookupA_le_sumBal _ _ _ hto
    have hbamt : addW b args.amount = b + args.amount := by
      refine addW_of_lt ?_
      omega
    have hsum2 : sumBal (setA (setA s.accounts c
          (bal - (args.amount + s.system_params.transfer_fee))) args.«to» (b + args.amount)) + b
        = sumBal (setA s.accounts c (bal - (args.amount + s.system_params.transfer_fee)))
          + (b + args.amount) :=
      sumBal_setA _ _ _ _ hto
    refine ⟨rfl, ?_, rfl, rfl, rfl, ?_⟩
    · simp only [hto, hbamt]
      omega
    · intro x hxc hxt
      simp only [hto]
      rw [lookupA_setA_ne _ _ _ _ hxt, lookupA_setA_ne _ _ _ _ hxc]

/-! Lemmas about the executor's scan and finalize phases. -/

theorem flipAccepted_lookup (l : List (Nat × Proposal)) (id : Nat) :
    lookupA (flipAccepted l) id = (lookupA l id).map flipP := by
  induction l with
  | nil => rfl
  | cons hd tl ih =>
    obtain ⟨k, p⟩ := hd
    by_cases hk : k = id
    · simp [flipAccepted, lookupA, hk]
    · simp [flipAccepted, lookupA, hk, ih]

theorem flipP_state_ne_accepted (p : Proposal) (h : p.state ≠ ProposalState.Accepted) :
    flipP p = p := by
  simp [flipP, h]

theorem flipP_state_accepted (p : Proposal) (h : p.state = ProposalState.Accepted) :
    flipP p = { p with state := ProposalState.Executing } := by
  simp [flipP, h]

theorem flipP_payload (p : Proposal) : (flipP p).payload = p.payload := by
  unfold flipP
  split <;> rfl

theorem flipP_set_state (p : Proposal) (st : ProposalState) :
    { flipP p with state := st } = { p with state := st } := by
  unfold flipP
  split <;> rfl

theorem finalSt_flipP (ext : ExtCall) (p : Proposal) :
    finalSt ext (flipP p) = finalSt ext p := by
  unfold flipP
  split <;> rfl

theorem acceptedIds_sublist (l : List (Nat × Proposal)) :
    List.Sublist (acceptedIds l) (l.map Prod.fst) := by
  induction l with
  | nil => simp [acceptedIds]
  | cons hd tl ih =>
    obtain ⟨k, p⟩ := hd
    by_cases hacc : p.state = ProposalState.Accepted
    · simpa [acceptedIds, hacc] using ih.cons₂ k
    · simpa [acceptedIds, hacc] using ih.cons k

theorem mem_acceptedIds (l : List (Nat × Proposal)) (id : Nat)
    (hnd : (l.map Prod.fst).Nodup) :
    id ∈ acceptedIds l ↔
      ∃ p, lookupA l id = some p ∧ p.state = ProposalState.Accepted := by
  induction l with
  | nil => simp [acceptedIds, lookupA]
  | cons hd tl ih =>
    obtain ⟨k, p⟩ := hd
    simp only [List.map_cons, List.nodup_cons] at hnd
    obtain ⟨hk, hnd2⟩ := hnd
    by_cases hacc : p.state = ProposalState.Accepted
    · by_cases hke : k = id
      · subst hke
        simp [acceptedIds, lookupA, hacc]
      · simp [acceptedIds, lookupA, hacc, hke, Ne.symm hke, ih hnd2]
    · by_cases hke : k = id
      · subst hke
        simp only [acceptedIds, hacc, if_false, lookupA, if_true]
        constructor
        · intro hmem
          exact absurd ((acceptedIds_sublist tl).subset hmem) hk
        · rintro ⟨p2, hp2, hacc2⟩
          exact absurd (Option.some.inj hp2 ▸ hacc2) hacc
      · simp [acceptedIds, lookupA, hacc, hke, ih hnd2]

theorem flipAccepted_keys (l : List (Nat × Proposal)) :
    (flipAccepted l).map Prod.fst = l.map Prod.fst := by
  induction l with
  | nil => rfl
  | cons hd tl ih =>
    obtain ⟨k, p⟩ := hd
    simp [flipAccepted, ih]

theorem update_proposal_state_lookup_ne (s : BasicDaoService) (pid : Nat)
    (st : ProposalState) (id : Nat) (hid : id ≠ pid) :
    lookupA (update_proposal_state s pid st).proposals id = lookupA s.proposals id := by
  unfold update_proposal_state
  split
  · rfl
  · exact lookupA_setA_ne _ _ _ _ hid

theorem update_proposal_state_lookup_self (s : BasicDaoService) (pid : Nat)
    (st : ProposalState) (p : Proposal) (hp : lookupA s.proposals pid = some p) :
    lookupA (update_proposal_state s pid st).proposals pid
      = some { p with state := st } := by
  unfold update_proposal_state
  rw [hp]
  exact lookupA_setA_self ..

theorem finalizeAll_lookup_not_mem (ext : ExtCall) (ids : List Nat)
    (s : BasicDaoService) (id : Nat) (h : id ∉ ids) :
    lookupA (finalizeAll ext s ids).proposals id = lookupA s.proposals id := by
  induction ids generalizing s with
  | nil => rfl
  | cons pid rest ih =>
    have hne : id ≠ pid := fun e => h (e ▸ List.mem_cons_self _ _)
    have hrest : id ∉ rest := fun hr => h (List.mem_cons_of_mem _ hr)
    unfold finalizeAll
    rw [ih _ hrest, update_proposal_state_lookup_ne _ _ _ _ hne]

theorem finalizeAll_lookup_mem (ext : ExtCall) (ids : List Nat)
    (s : BasicDaoService) (id : Nat) (p : Proposal) (hnd : ids.Nodup)
    (hmem : id ∈ ids) (hp : lookupA s.proposals id = some p) :
    lookupA (finalizeAll ext s ids).proposals id
      = some { p with state := finalSt ext p } := by
  induction ids generalizing s with
  | nil => cases hmem
  | cons pid rest ih =>
    obtain ⟨hhd, htl⟩ := List.nodup_cons.mp hnd
    rcases List.mem_cons.mp hmem with he | hr
    · subst he
      have hexec : execute_proposal ext s id =
          (match ext p.payload with
           | Except.ok _ => Except.ok ()
           | Except.error (code, msg) => Except.error (execMsg p.payload code msg)) := by
        unfold execute_proposal
        rw [hp]
      unfold finalizeAll
      rw [finalizeAll_lookup_not_mem ext rest _ id hhd]
      rw [hexec]
      rcases hext : ext p.payload with ⟨code, msg⟩ | bytes
      · have hself := update_proposal_state_lookup_self s id
          (ProposalState.Failed (execMsg p.payload code msg)) p hp
        simpa [finalSt, hext] using hself
      · have hself := update_proposal_state_lookup_self s id ProposalState.Succeeded p hp
        simpa [finalSt, hext] using hself
    · have hne : id ≠ pid := fun e => hhd (e ▸ hr)
      unfold finalizeAll
      refine ih _ htl hr ?_
      rw [update_proposal_state_lookup_ne _ _ _ _ hne]
      exact hp

/-- Claim C8: on a tick (proposal keys distinct, as in a `HashMap`): the
scan pass flips exactly the `Accepted` proposals to `Executing` (collecting
exactly their ids); each flipped proposal ends the tick in `Succeeded` when
its external call succeeds and in `Failed(reason)` carrying the originating
code and message when it fails; every other proposal is untouched; and no
account balance changes. -/
theorem tick_executes_accepted (ext : ExtCall) (s : BasicDaoService)
    (hnd : (s.proposals.map Prod.fst).Nodup) :
    (∀ id p, lookupA s.proposals id = some p →
      lookupA (flipAccepted s.proposals) id = some (flipP p) ∧
      (id ∈ acceptedIds s.proposals ↔ p.state = ProposalState.Accepted)) ∧
    (∀ id p, lookupA s.proposals id = some p → p.state = ProposalState.Accepted →
      lookupA (execute_accepted_proposals ext s).proposals id
          = some { p with state := finalSt ext p } ∧
      (∀ bytes, ext p.payload = Except.ok bytes →
        finalSt ext p = ProposalState.Succeeded) ∧
      (∀ code msg, ext p.payload = Except.error (code, msg) →
        finalSt ext p = ProposalState.Failed (execMsg p.payload code msg))) ∧
    (∀ id p, lookupA s.proposals id = some p → p.state ≠ ProposalState.Accepted →
      lookupA (execute_accepted_proposals ext s).proposals id = some p) ∧
    (execute_accepted_proposals ext s).accounts = s.accounts := by
  have hids_nd : (acceptedIds s.proposals).Nodup :=
    (acceptedIds_sublist s.proposals).nodup hnd
  refine ⟨?_, ?_, ?_, execute_accepted_proposals_accounts_eq ext s⟩
  · intro id p hp
    refine ⟨?_, ?_⟩
    · rw [flipAccepted_lookup, hp]
      rfl
    · rw [mem_acceptedIds _ _ hnd]
      constructor
      · rintro ⟨p2, hp2, hacc2⟩
        obtain rfl := Option.some.inj (hp.symm.trans hp2)
        exact hacc2
      · intro hacc
        exact ⟨p, hp, hacc⟩
  · intro id p hp hacc
    have hmem : id ∈ acceptedIds s.proposals := (mem_acceptedIds _ _ hnd).mpr ⟨p, hp, hacc⟩
    have hflip : lookupA (flipAccepted s.proposals) id = some (flipP p) := by
      rw [flipAccepted_lookup, hp]
      rfl
    have hfin := finalizeAll_lookup_mem ext (acceptedIds s.proposals)
      { s with proposals := flipAccepted s.proposals } id (flipP p) hids_nd hmem hflip
    refine ⟨?_, ?_, ?_⟩
    · unfold execute_accepted_proposals
      rw [hfin, finalSt_flipP, flipP_set_state]
    · intro bytes hb
      simp [finalSt, hb]
    · intro code msg hb
      simp [finalSt, hb]
  · intro id p hp hnacc
    have hmem : id ∉ acceptedIds s.proposals := by
      rw [mem_acceptedIds _ _ hnd]
      rintro ⟨p2, hp2, hacc2⟩
      obtain rfl := Option.some.inj (hp.symm.trans hp2)
      exact hnacc hacc2
    have hflip : lookupA (flipAccepted s.proposals) id = some (flipP p) := by
      rw [flipAccepted_lookup, hp]
      rfl
    unfold execute_accepted_proposals
    rw [finalizeAll_lookup_not_mem ext _ _ _ hmem]
    rw [flipP_state_ne_accepted p hnacc] at hflip
    exact hflip

/-- Claim C8 witness: in `stC8` the tick flips both accepted proposals;
proposal 1 (method "good") ends `Succeeded`, proposal 2 ends
`Failed(reason)` with the rejection code and message in the reason, the
open proposal 3 is untouched, and the ledger is unchanged. -/
theorem tick_executes_accepted_witness :
    finalSt extC8 pC8a = ProposalState.Succeeded ∧
    finalSt extC8 pC8b = ProposalState.Failed (execMsg pC8b.payload "SysFatal" "boom") ∧
    lookupA (execute_accepted_proposals extC8 stC8).proposals 1
      = some { pC8a with state := finalSt extC8 pC8a } ∧
    lookupA (execute_accepted_proposals extC8 stC8).proposals 2
      = some { pC8b with state := finalSt extC8 pC8b } ∧
    lookupA (execute_accepted_proposals extC8 stC8).proposals 3 = some pC8c ∧
    (execute_accepted_proposals extC8 stC8).accounts = stC8.accounts := by
  have h := tick_executes_accepted extC8 stC8 (by decide)
  exact ⟨(h.2.1 1 pC8a rfl rfl).2.1 [1] rfl,
    (h.2.1 2 pC8b rfl rfl).2.2 "SysFatal" "boom" rfl,
    (h.2.1 1 pC8a rfl rfl).1, (h.2.1 2 pC8b rfl rfl).1,
    h.2.2.1 3 pC8c rfl (by decide), h.2.2.2⟩

/-- Claim C3 (amended): the executor's tick only moves proposal states
forward along the lifecycle graph, and a proposal already in a terminal
state is returned by the tick exactly as it was.  (The counterexample
theorem shows `update_proposal_state` and `vote` do not share this
property.) -/
theorem tick_moves_states_forward_only (ext : ExtCall) (s : BasicDaoService)
    (hnd : (s.proposals.map Prod.fst).Nodup) :
    ∀ id p, lookupA s.proposals id = some p →
      ∃ p2, lookupA (execute_accepted_proposals ext s).proposals id = some p2 ∧
        ForwardReach p.state p2.state ∧ (Terminal p.state → p2 = p) := by
  intro id p hp
  have hids_nd : (acceptedIds s.proposals).Nodup :=
    (acceptedIds_sublist s.proposals).nodup hnd
  by_cases hacc : p.state = ProposalState.Accepted
  · have hmem : id ∈ acceptedIds s.proposals := (mem_acceptedIds _ _ hnd).mpr ⟨p, hp, hacc⟩
    have hflip : lookupA (flipAccepted s.proposals) id = some (flipP p) := by
      rw [flipAccepted_lookup, hp]
      rfl
    have hfin := finalizeAll_lookup_mem ext (acceptedIds s.proposals)
      { s with proposals := flipAccepted s.proposals } id (flipP p) hids_nd hmem hflip
    refine ⟨{ p with state := finalSt ext p }, ?_, ?_, ?_⟩
    · unfold execute_accepted_proposals
      rw [hfin, finalSt_flipP, flipP_set_state]
    · rw [hacc]
      show ForwardReach ProposalState.Accepted (finalSt ext p)
      unfold finalSt
      rcases ext p.payload with ⟨code, msg⟩ | bytes
      · exact Relation.ReflTransGen.head ForwardEdge.accepted_executing
          (Relation.ReflTransGen.single (ForwardEdge.executing_failed _))
      · exact Relation.ReflTransGen.head ForwardEdge.accepted_executing
          (Relation.ReflTransGen.single ForwardEdge.executing_succeeded)
    · intro hterm
      exfalso
      rcases hterm with h1 | ⟨r, h2⟩ | h3
      · exact ProposalState.noConfusion (hacc ▸ h1)
      · exact ProposalState.noConfusion (hacc ▸ h2)
      · exact ProposalState.noConfusion (hacc ▸ h3)
  · have hmem : id ∉ acceptedIds s.proposals := by
      rw [mem_acceptedIds _ _ hnd]
      rintro ⟨p2, hp2, hacc2⟩
      obtain rfl := Option.some.inj (hp.symm.trans hp2)
      exact hacc hacc2
    have hflip : lookupA (flipAccepted s.proposals) id = some (flipP p) := by
      rw [flipAccepted_lookup, hp]
      rfl
    refine ⟨p, ?_, Relation.ReflTransGen.refl, fun _ => rfl⟩
    unfold execute_accepted_proposals
    rw [finalizeAll_lookup_not_mem ext _ _ _ hmem]
    rw [flipP_state_ne_accepted p hacc] at hflip
    exact hflip

/-- Claim C3 witness (for the amended theorem): in `stC8` the tick carries
the accepted proposal 1 forward and, were its state terminal, would leave
it untouched. -/
theorem tick_moves_states_forward_only_witness :
    ∃ p2, lookupA (execute_accepted_proposals extC8 stC8).proposals 1 = some p2 ∧
      ForwardReach pC8a.state p2.state ∧ (Terminal pC8a.state → p2 = pC8a) :=
  tick_moves_states_forward_only extC8 stC8 (by decide) 1 pC8a rfl

/-- Claim C6 (counterexample to the unconditional statement): in `stC6`
(one account `a` holding 1 token, fee 1) the single transfer of amount 1 is
"successful" (`Ok`), yet the resulting total supply is not the initial
supply minus the fee — the u64 debit wrapped, minting `2^64 - 2` tokens. -/
theorem conservation_fails_on_wrapping_transfer :
    (transfer stC6 "a" { «to» := "b", amount := 1 }).1 = Except.ok () ∧
    sumBal (transfer stC6 "a" { «to» := "b", amount := 1 }).2.accounts
      ≠ sumBal stC6.accounts - stC6.system_params.transfer_fee := by
  exact ⟨rfl, by decide⟩

/-- Claim C6 (amended): for every sequence of transfers in which each
transfer finds a caller balance of at least `amount + transfer_fee` and the
total supply fits in a u64 (so no debit or credit wraps), every transfer
succeeds, the final total supply is the initial supply minus one fee per
transfer (the fee is burned, credited to no account), the proposal store
and system parameters are untouched, and every account that is neither a
caller nor a recipient of the sequence keeps its balance. -/
theorem transfers_conserve_modulo_fees (reqs : List (Principal × TransferArgs))
    (s : BasicDaoService) (h : SafeSeq s reqs) :
    allOk s reqs ∧
    sumBal (applyTransfers s reqs).accounts
        + reqs.length * s.system_params.transfer_fee
      = sumBal s.accounts ∧
    (applyTransfers s reqs).system_params = s.system_params ∧
    (applyTransfers s reqs).proposals = s.proposals ∧
    (∀ x, NotParty x reqs →
      lookupA (applyTransfers s reqs).accounts x = lookupA s.accounts x) := by
  induction h with
  | nil s => exact ⟨trivial, by simp [applyTransfers], rfl, rfl, fun x _ => rfl⟩
  | cons s c args rest hstep hrest ih =>
    obtain ⟨hok, hsum, hparams, hprops, _, hframe⟩ := transfer_safe_step s c args hstep
    obtain ⟨ihok, ihsum, ihparams, ihprops, ihframe⟩ := ih
    refine ⟨⟨hok, ihok⟩, ?_, ?_, ?_, ?_⟩
    · rw [hparams] at ihsum
      simp only [applyTransfers, List.length_cons, Nat.succ_mul]
      omega
    · simpa only [applyTransfers, hparams] using ihparams
    · simpa only [applyTransfers, hprops] using ihprops
    · intro x hx
      have hx1 := hx (c, args) (List.mem_cons_self _ _)
      have hx2 : NotParty x rest := fun r hr => hx r (List.mem_cons_of_mem _ hr)
      simpa only [applyTransfers, ihframe x hx2] using hframe x hx1.1 hx1.2

/-- Claim C6 witness: the safe two-transfer sequence `reqsC6` on `stC6w`
(fee 2): supply drops from 35 to 31 = 35 - 2·2. -/
theorem transfers_conserve_modulo_fees_witness :
    sumBal (applyTransfers stC6w reqsC6).accounts
        + reqsC6.length * stC6w.system_params.transfer_fee
      = sumBal stC6w.accounts :=
  (transfers_conserve_modulo_fees reqsC6 stC6w
    (SafeSeq.cons _ _ _ _ ⟨30, rfl, by decide, by decide⟩
      (SafeSeq.cons _ _ _ _ ⟨15, rfl, by decide, by decide⟩ (SafeSeq.nil _)))).2.1

/-- Claim C7: with an account of balance `bal` (< 2^64): if the deposit is
covered, `submit_proposal` returns the current `next_proposal_id`, debits
exactly the deposit from the proposer (touching no other account), stores a
fresh proposal under that id in `Open` state with zero tallies and an empty
voter set (touching no other proposal), and bumps the id counter; if the
balance is below the deposit it fails with InsufficientFunds and returns
the state unchanged.  Moreover no other operation writes the ledger — the
deposit is never refunded by voting, state updates, or the executor. -/
theorem submit_proposal_spec (s : BasicDaoService) (c : Principal)
    (payload : ProposalPayload) (now : Nat) (bal : Nat)
    (hacc : lookupA s.accounts c = some bal) (hbal : bal < U64) :
    (s.system_params.proposal_submission_deposit ≤ bal →
      (submit_proposal s c payload now).1 = Except.ok s.next_proposal_id ∧
      lookupA (submit_proposal s c payload now).2.accounts c
        = some (bal - s.system_params.proposal_submission_deposit) ∧
      (∀ x, x ≠ c → lookupA (submit_proposal s c payload now).2.accounts x
        = lookupA s.accounts x) ∧
      lookupA (submit_proposal s c payload now).2.proposals s.next_proposal_id
        = some { id := s.next_proposal_id, timestamp := now, proposer := c
                 payload := payload, state := ProposalState.Open
                 votes_yes := 0, votes_no := 0, voters := [] } ∧
      (∀ pid, pid ≠ s.next_proposal_id →
        lookupA (submit_proposal s c payload now).2.proposals pid
          = lookupA s.proposals pid) ∧
      (submit_proposal s c payload now).2.next_proposal_id = addW s.next_proposal_id 1) ∧
    (bal < s.system_params.proposal_submission_deposit →
      submit_proposal s c payload now
        = (Except.error "Insufficient funds to submit proposal", s)) ∧
    (∀ pid st, (update_proposal_state s pid st).accounts = s.accounts) ∧
    (∀ c2 a, (vote s c2 a).2.accounts = s.accounts) ∧
    (∀ ext, (execute_accepted_proposals ext s).accounts = s.accounts) := by
  refine ⟨?_, ?_, fun pid st => update_proposal_state_accounts_eq s pid st,
    fun c2 a => vote_accounts_eq s c2 a,
    fun ext => execute_accepted_proposals_accounts_eq ext s⟩
  · intro hdep
    have hnlt : ¬ bal < s.system_params.proposal_submission_deposit := Nat.not_lt.mpr hdep
    have hsub : subW bal s.system_params.proposal_submission_deposit
        = bal - s.system_params.proposal_submission_deposit := subW_of_le hdep hbal
    have heval : submit_proposal s c payload now =
        (Except.ok s.next_proposal_id,
          { s with
            accounts := setA s.accounts c (bal - s.system_params.proposal_submission_deposit)
            next_proposal_id := addW s.next_proposal_id 1
            proposals := setA s.proposals s.next_proposal_id
                { id := s.next_proposal_id, timestamp := now, proposer := c
                  payload := payload, state := ProposalState.Open
                  votes_yes := 0, votes_no := 0, voters := [] } }) := by
      simp [submit_proposal, hacc, hnlt, hsub]
    rw [heval]
    exact ⟨rfl, lookupA_setA_self .., fun x hx => lookupA_setA_ne _ _ _ _ hx,
      lookupA_setA_self .., fun pid hpid => lookupA_setA_ne _ _ _ _ hpid, rfl⟩
  · intro hlt
    simp [submit_proposal, hacc, hlt]

/-- Claim C7 witness: deposit 10, account `ann` holding exactly 10 — the
submission succeeds with id 1, the balance drops to 0, the stored proposal
is `Open` with empty tallies, and a second identical submission from the
now-zero balance fails with InsufficientFunds. -/
theorem submit_proposal_spec_witness :
    (submit_proposal stC7 "ann" plC 5).1 = Except.ok 1 ∧
    lookupA (submit_proposal stC7 "ann" plC 5).2.accounts "ann" = some 0 ∧
    lookupA (submit_proposal stC7 "ann" plC 5).2.proposals 1
      = some { id := 1, timestamp := 5, proposer := "ann", payload := plC
               state := ProposalState.Open, votes_yes := 0, votes_no := 0
               voters := [] } ∧
    (submit_proposal (submit_proposal stC7 "ann" plC 5).2 "ann" plC 6).1
      = Except.error "Insufficient funds to submit proposal" := by
  have h1 := (submit_proposal_spec stC7 "ann" plC 5 10 rfl (by decide)).1 (by decide)
  have h2 := ((submit_proposal_spec (submit_proposal stC7 "ann" plC 5).2 "ann" plC 6 0
    rfl (by decide)).2.1 (by decide))
  exact ⟨h1.1, h1.2.1, h1.2.2.2.1, by rw [h2]⟩

/-- Claim C4: the yes-threshold is evaluated before the no-threshold.  For
a vote that is accepted (caller has an account, proposal exists, caller not
yet in the voter set): whenever the updated yes-tally reaches the
threshold — in particular when a single vote pushes both tallies to the
threshold at once — the returned and stored state are `Accepted`, never
`Rejected`; a `Rejected` result occurs only when the updated yes-tally is
below the threshold and either the updated no-tally reached it or the
proposal was already `Rejected` before the vote. -/
theorem vote_checks_yes_threshold_first (s : BasicDaoService) (c : Principal)
    (pid : Nat) (v : Vote) (w : Nat) (p : Proposal)
    (hacc : lookupA s.accounts c = some w)
    (hp : lookupA s.proposals pid = some p)
    (hv : c ∉ p.voters) :
    (s.system_params.proposal_vote_threshold ≤ newYes p w v →
      (vote s c ⟨pid, v⟩).1 = Except.ok ProposalState.Accepted ∧
      (lookupA (vote s c ⟨pid, v⟩).2.proposals pid).map Proposal.state
        = some ProposalState.Accepted) ∧
    ((vote s c ⟨pid, v⟩).1 = Except.ok ProposalState.Rejected →
      newYes p w v < s.system_params.proposal_vote_threshold ∧
        (s.system_params.proposal_vote_threshold ≤ newNo p w v ∨
          p.state = ProposalState.Rejected)) := by
  rw [vote_eval s c pid v w p hacc hp hv]
  constructor
  · intro hy
    constructor
    · simp [voteP_state, hy]
    · simp [lookupA_setA_self, voteP_state, hy]
  · intro hr
    simp only at hr
    have hst := Except.ok.inj hr
    rw [voteP_state] at hst
    by_cases hy : s.system_params.proposal_vote_threshold ≤ newYes p w v
    · simp [hy] at hst
    · by_cases hn : s.system_params.proposal_vote_threshold ≤ newNo p w v
      · exact ⟨Nat.lt_of_not_le hy, Or.inl hn⟩
      · simp [hy, hn] at hst
        exact ⟨Nat.lt_of_not_le hy, Or.inr hst⟩

/-- Claim C4 witness: in `stC4` (threshold 3) the yes-vote of weight 3 by
`ann` pushes the yes-tally to 3 while the no-tally already sits at 3 — both
thresholds hold after the single vote, and the result is `Accepted`. -/
theorem vote_checks_yes_threshold_first_witness :
    (vote stC4 "ann" ⟨1, Vote.Yes⟩).1 = Except.ok ProposalState.Accepted ∧
    stC4.system_params.proposal_vote_threshold ≤ newYes pC4 3 Vote.Yes ∧
    stC4.system_params.proposal_vote_threshold ≤ newNo pC4 3 Vote.Yes :=
  ⟨((vote_checks_yes_threshold_first stC4 "ann" 1 Vote.Yes 3 pC4 rfl rfl
      (by decide)).1 (by decide)).1, by decide, by decide⟩

/-- Claim C5: a caller who already appears in a proposal's voter set gets
`AlreadyVoted` for any further vote on it, whatever the choice, and the
whole service state (tallies, voter set, proposal state, ledger) is
returned unchanged. -/
theorem vote_rejects_repeat_voter (s : BasicDaoService) (c : Principal)
    (pid : Nat) (v : Vote) (w : Nat) (p : Proposal)
    (hacc : lookupA s.accounts c = some w)
    (hp : lookupA s.proposals pid = some p)
    (hv : c ∈ p.voters) :
    vote s c ⟨pid, v⟩ = (Except.error "Caller has already voted", s) := by
  simp [vote, hacc, hp, hv]

/-- Claim C5 witness: `eve` already voted on proposal 1 of `stC5`; both a
Yes and a No re-vote fail with AlreadyVoted and leave the state unchanged. -/
theorem vote_rejects_repeat_voter_witness :
    vote stC5 "eve" ⟨1, Vote.Yes⟩ = (Except.error "Caller has already voted", stC5) ∧
    vote stC5 "eve" ⟨1, Vote.No⟩ = (Except.error "Caller has already voted", stC5) :=
  ⟨vote_rejects_repeat_voter stC5 "eve" 1 Vote.Yes 2 pC5 rfl rfl (by decide),
   vote_rejects_repeat_voter stC5 "eve" 1 Vote.No 2 pC5 rfl rfl (by decide)⟩

/-- Claim C9: `update_system_params` called by any identity other than the
engine's own identity returns silently (the entry point has no error
channel) with the entire state — in particular all three parameters —
unchanged; called by the engine itself, every `Some` field of the patch
overwrites the corresponding parameter, every `none` field leaves it
untouched, and nothing else (ledger, proposals, id counter) changes. -/
theorem update_system_params_spec (caller self_id : Principal)
    (s : BasicDaoService) (payload : UpdateSystemParamsPayload) :
    (caller ≠ self_id → update_system_params caller self_id s payload = s) ∧
    (caller = self_id →
      (update_system_params caller self_id s payload).system_params.transfer_fee
          = payload.transfer_fee.getD s.system_params.transfer_fee ∧
      (update_system_params caller self_id s payload).system_params.proposal_vote_threshold
          = payload.proposal_vote_threshold.getD s.system_params.proposal_vote_threshold ∧
      (update_system_params caller self_id s
            payload).system_params.proposal_submission_deposit
          = payload.proposal_submission_deposit.getD
              s.system_params.proposal_submission_deposit ∧
      (update_system_params caller self_id s payload).accounts = s.accounts ∧
      (update_system_params caller self_id s payload).proposals = s.proposals ∧
      (update_system_params caller self_id s payload).next_proposal_id
          = s.next_proposal_id) := by
  constructor
  · intro hne
    simp [update_system_params, hne]
  · intro heq
    subst heq
    rcases payload with ⟨f, t, d⟩
    rcases f with _ | f <;> rcases t with _ | t <;> rcases d with _ | d <;>
      simp [update_system_params]

/-- Claim C9 witness: on `stC9` with `patchC9` (fee ↦ 9, other fields
absent), a non-privileged caller changes nothing, while the self-call sets
the fee to 9 and leaves the untouched threshold in place. -/
theorem update_system_params_spec_witness :
    update_system_params "attacker" "dao" stC9 patchC9 = stC9 ∧
    (update_system_params "dao" "dao" stC9 patchC9).system_params.transfer_fee = 9 ∧
    (update_system_params "dao" "dao" stC9 patchC9).system_params.proposal_vote_threshold
      = stC9.system_params.proposal_vote_threshold := by
  have h1 := (update_system_params_spec "attacker" "dao" stC9 patchC9).1 (by decide)
  have h2 := (update_system_params_spec "dao" "dao" stC9 patchC9).2 rfl
  exact ⟨h1, h2.1, h2.2.1⟩

/-- Claim C10: the `update_proposal_state` entry point performs no
authorization check — any two callers produce identical post-states; every
caller can set any existing proposal to any state (other proposals
untouched), and the call silently no-ops when the proposal is absent.  By
contrast `update_system_params` does check the caller: on `stC9`/`patchC9`
the self-call and a foreign call produce different states. -/
theorem update_proposal_state_ignores_caller (c1 c2 : Principal)
    (s : BasicDaoService) (pid : Nat) (st : ProposalState) :
    update_proposal_state_entry c1 s pid st = update_proposal_state_entry c2 s pid st ∧
    (∀ p, lookupA s.proposals pid = some p →
      lookupA (update_proposal_state_entry c1 s pid st).proposals pid
          = some { p with state := st } ∧
      (∀ id, id ≠ pid → lookupA (update_proposal_state_entry c1 s pid st).proposals id
          = lookupA s.proposals id)) ∧
    (lookupA s.proposals pid = none → update_proposal_state_entry c1 s pid st = s) ∧
    update_system_params "dao" "dao" stC9 patchC9
      ≠ update_system_params "attacker" "dao" stC9 patchC9 := by
  refine ⟨rfl, ?_, ?_, by decide⟩
  · intro p hp
    exact ⟨update_proposal_state_lookup_self s pid st p hp,
      fun id hid => update_proposal_state_lookup_ne s pid st id hid⟩
  · intro hnone
    unfold update_proposal_state_entry update_proposal_state
    rw [hnone]

/-- Claim C10 witness: a random caller and the engine's own identity
produce the same post-state of `update_proposal_state`, and the random
caller does set proposal 1 of `stC9` to `Executing`. -/
theorem update_proposal_state_ignores_caller_witness :
    update_proposal_state_entry "mallory" stC9 1 ProposalState.Executing
      = update_proposal_state_entry "dao" stC9 1 ProposalState.Executing ∧
    lookupA (update_proposal_state_entry "mallory" stC9 1
        ProposalState.Executing).proposals 1
      = some { pC4 with state := ProposalState.Executing } := by
  have h := update_proposal_state_ignores_caller "mallory" "dao" stC9 1
    ProposalState.Executing
  exact ⟨h.1, (h.2.1 pC4 rfl).1⟩

end BasicDao
